import Mathlib

/-!
Shallow embedding of `slitlessutils/core/utilities/pool.py`.

The source defines a single class `Pool` holding a function `func`, a resolved
worker count `ncpu` and a progress-bar label `desc`.  Calling the pool runs
`func` once per input item, serially when `min(total, ncpu) == 1` and through
`multiprocessing.Pool.imap` otherwise.  `imap` is an order-preserving map, so
the parallel branch is modelled as the same ordered fold as the serial branch,
executed with the (possibly keyword-bound) function that the workers see.

Python keyword dictionaries are modelled as association lists with dict-update
lookup semantics; `functools` keyword binding is modelled by storing the bound
keywords next to the base callable, since the code only ever layers keyword
bindings and never positional ones.
-/

/-- A Python keyword-argument dictionary, modelled as an association list. -/
abbrev Kw := List (String × Int)

/-- Python dict update `{**b, **k}`: entries of `k` override those of `b`. -/
def kwMerge (b k : Kw) : Kw :=
  b.filter (fun q => (k.lookup q.1).isNone) ++ k

/-- A Python callable as the pool uses it: a base function taking the per-item
input, the shared positional extras, and a keyword dictionary, together with
the keywords already bound onto it (empty for a bare function; `functools`
keyword binding only adds to `bound`). -/
structure PyFunc (ι σ ε α : Type) where
  base : ι → σ → Kw → Except ε α
  bound : Kw

/-- Calling a (possibly keyword-bound) function: call-site keywords override
the bound ones, as Python does. -/
def PyFunc.call (f : PyFunc ι σ ε α) (i : ι) (s : σ) (k : Kw) : Except ε α :=
  f.base i s (kwMerge f.bound k)

/-- Keyword binding (`functools`-style `(self.func, **kwargs)` wrapping): the
result of `Pool.__call__`s swap `self.func = partial(self.func, **kwargs)`. -/
def kwBind (f : PyFunc ι σ ε α) (k : Kw) : PyFunc ι σ ε α :=
  ⟨f.base, kwMerge f.bound k⟩

/-- The pool's state: resolved worker count `ncpu`, progress label `desc`,
and the stored function `func` (`Pool.__init__` fields). -/
structure Pool (ι σ ε α : Type) where
  ncpu : Int
  desc : String
  func : PyFunc ι σ ε α

/-- The hardware ceiling computed in `Pool.__init__`:
`nmax = ncpus - ncores // ncpus` with `ncpus` physical and `ncores` logical
cores.  It can be zero or negative (e.g. two physical cores with
hyperthreading give `2 - 4 // 2 = 0`). -/
def nmaxOf (ncpus ncores : Nat) : Int :=
  (ncpus : Int) - ((ncores / ncpus : Nat) : Int)

/-- `Pool.__init__`: resolve the requested worker count against the hardware
report.  `none` models Python `None`. -/
def Pool.init (func : PyFunc ι σ ε α) (ncpus ncores : Nat)
    (ncpu : Option Int) (desc : String) : Pool ι σ ε α :=
  let nmax := nmaxOf ncpus ncores
  { ncpu :=
      match ncpu with
      | none => nmax
      | some n => if n ≤ 0 then nmax else min (max n 1) nmax
    desc := desc
    func := func }

/-- The iterable handed to `Pool.__call__`: its items in order, and whether it
supports `len()` (a generator does not, and `len` then raises `TypeError`). -/
structure Itrs (ι : Type) where
  items : List ι
  sized : Bool

/-- Python `len(itrs)`: `some` length for a sized input, `none` for the
`TypeError` raised on an unsized one. -/
def Itrs.len (it : Itrs ι) : Option Nat :=
  if it.sized then some it.items.length else none

/-- The ways `Pool.__call__` itself can raise, beyond returning results:
`sizing` is the `TypeError` from `len()` on an unsized input with no explicit
total, `badProcesses` is the `ValueError` from `multiprocessing.Pool` when the
chosen process count is below one, and `item e` propagates an exception `e`
raised by the function on some item. -/
inductive PoolErr (ε : Type) where
  | sizing : PoolErr ε
  | badProcesses : PoolErr ε
  | item : ε → PoolErr ε
deriving DecidableEq

/-- `total if total is not None else len(itrs)` at the top of
`Pool.__call__`. -/
def resolvedTotal (it : Itrs ι) (total : Option Int) : Option Int :=
  match total with
  | some t => some t
  | none => it.len.map (fun n => (n : Int))

/-- Ordered execution of the function over the item list: the list
comprehension of the serial branch, and equally the order-preserving `imap`
collection of the parallel branch (submission order equals result order).
Returns the first error or the ordered results, together with the number of
`tqdm` per-item ticks emitted (a tick fires when the consumer asks for the
next element, so a run that fails on item `j` has ticked `j` times) and the
number of times the function was invoked. -/
def runSerial (f : PyFunc ι σ ε α) (args : σ) (kwargs : Kw) :
    List ι → Except ε (List α) × Nat × Nat
  | [] => (Except.ok [], 0, 0)
  | i :: rest =>
    match f.call i args kwargs with
    | Except.error e => (Except.error e, 0, 1)
    | Except.ok a =>
      match runSerial f args kwargs rest with
      | (Except.error e, t, c) => (Except.error e, t + 1, c + 1)
      | (Except.ok as, t, c) => (Except.ok (a :: as), t + 1, c + 1)

/-- Everything observable about one invocation of `Pool.__call__`: the
returned results or the exception, the pool's post-call state, the per-item
progress ticks emitted, the number of function invocations, the number of
assignments to `self.func` performed during the call (counting the transient
swap as well as the restore), and which branch ran (`some true` = serial list
comprehension, `some false` = the multiprocessing branch, `none` = failed
before branching). -/
structure CallOut (ι σ ε α : Type) where
  result : Except (PoolErr ε) (List α)
  pool : Pool ι σ ε α
  ticks : Nat
  calls : Nat
  funcWrites : Nat
  branch : Option Bool

/-- `Pool.__call__`: resolve `total`, pick `ncpu = min(total, self.ncpu)`,
then either the serial list comprehension (`ncpu == 1`) or the
multiprocessing branch, which first swaps in the keyword-bound function when
`kwargs` is non-empty, runs the order-preserving `imap`, and restores
`self.func` only on the success path (the restore line is skipped when the
`with` block raises, and `ValueError` from a process count below one also
skips it). -/
def Pool.call (p : Pool ι σ ε α) (itrs : Itrs ι) (args : σ)
    (total : Option Int) (kwargs : Kw) : CallOut ι σ ε α :=
  match resolvedTotal itrs total with
  | none =>
      { result := Except.error PoolErr.sizing, pool := p,
        ticks := 0, calls := 0, funcWrites := 0, branch := none }
  | some tot =>
      let ncpu : Int := min tot p.ncpu
      if ncpu = 1 then
        let r := runSerial p.func args kwargs itrs.items
        { result := Except.mapError PoolErr.item r.1, pool := p,
          ticks := r.2.1, calls := r.2.2, funcWrites := 0, branch := some true }
      else
        let wfunc := if kwargs.isEmpty then p.func else kwBind p.func kwargs
        let wr : Nat := if kwargs.isEmpty then 0 else 1
        if ncpu < 1 then
          { result := Except.error PoolErr.badProcesses,
            pool := { p with func := wfunc }, ticks := 0, calls := 0,
            funcWrites := wr, branch := some false }
        else
          let r := runSerial wfunc args [] itrs.items
          match r.1 with
          | Except.error e =>
              { result := Except.error (PoolErr.item e),
                pool := { p with func := wfunc }, ticks := r.2.1,
                calls := r.2.2, funcWrites := wr, branch := some false }
          | Except.ok as =>
              { result := Except.ok as, pool := p, ticks := r.2.1,
                calls := r.2.2, funcWrites := wr * 2, branch := some false }

/-- A concrete base function for witnesses and counterexamples: raises on
input `3`, otherwise returns the input plus the value bound to keyword
`"b"` (zero when the keyword is absent). -/
def exBase : Int → Unit → Kw → Except Unit Int :=
  fun i _ k =>
    if i = 3 then Except.error () else Except.ok (i + ((k.lookup "b").getD 0))

/-- The bare callable built from `exBase`: nothing bound yet. -/
def exFunc : PyFunc Int Unit Unit Int := ⟨exBase, []⟩

example :
    let f : PyFunc Int Unit Unit Int := ⟨fun i _ _ => Except.ok (i * 2), []⟩
    let p : Pool Int Unit Unit Int := ⟨1, "", f⟩
    (p.call ⟨[1, 2, 3], true⟩ () none []).result = Except.ok [2, 4, 6] := rfl

example :
    let f : PyFunc Int Unit Unit Int := ⟨fun i _ _ => Except.ok (i * 2), []⟩
    let p : Pool Int Unit Unit Int := ⟨3, "", f⟩
    (p.call ⟨[1, 2, 3], true⟩ () none []).result = Except.ok [2, 4, 6] := rfl

example : (Pool.init (ι := Int) (σ := Unit) (ε := Unit) (α := Int)
    ⟨fun i _ _ => Except.ok i, []⟩ 4 8 none "").ncpu = 2 := by decide

/-! ### Helper lemmas -/

theorem kwMerge_nil (b : Kw) : kwMerge b [] = b := by
  simp [kwMerge]

theorem PyFunc.call_kwBind (f : PyFunc ι σ ε α) (k : Kw) (i : ι) (s : σ) :
    (kwBind f k).call i s [] = f.call i s k := by
  simp [PyFunc.call, kwBind, kwMerge_nil]

theorem runSerial_kwBind (f : PyFunc ι σ ε α) (k : Kw) (args : σ)
    (l : List ι) : runSerial (kwBind f k) args [] l = runSerial f args k l := by
  induction l with
  | nil => rfl
  | cons i rest ih =>
    unfold runSerial
    rw [PyFunc.call_kwBind, ih]

theorem runSerial_ok_map (f : PyFunc ι σ ε α) (args : σ) (k : Kw) (g : ι → α)
    (l : List ι) (hg : ∀ i ∈ l, f.call i args k = Except.ok (g i)) :
    (runSerial f args k l).1 = Except.ok (l.map g) := by
  induction l with
  | nil => rfl
  | cons i rest ih =>
    have hi : f.call i args k = Except.ok (g i) := hg i (List.mem_cons_self i rest)
    have hr := ih (fun j hj => hg j (List.mem_cons_of_mem i hj))
    unfold runSerial
    rw [hi]
    rcases h : runSerial f args k rest with ⟨r, t, c⟩
    rw [h] at hr
    dsimp at hr
    subst hr
    simp

theorem runSerial_ok_ticks (f : PyFunc ι σ ε α) (args : σ) (k : Kw)
    (l : List ι) (as : List α) (h : (runSerial f args k l).1 = Except.ok as) :
    (runSerial f args k l).2.1 = l.length := by
  induction l generalizing as with
  | nil => rfl
  | cons i rest ih =>
    unfold runSerial at h ⊢
    cases hc : f.call i args k with
    | error e => rw [hc] at h; simp at h
    | ok a =>
      rcases hr : runSerial f args k rest with ⟨r, t, c⟩
      rw [hc, hr] at h
      cases r with
      | error e => simp at h
      | ok bs =>
        have ht := ih bs (by rw [hr])
        rw [hr] at ht
        dsimp at ht ⊢
        omega

theorem call_pool_cases (p : Pool ι σ ε α) (itrs : Itrs ι) (args : σ)
    (total : Option Int) (kwargs : Kw) :
    (p.call itrs args total kwargs).pool = p ∨
    (p.call itrs args total kwargs).pool = { p with func := kwBind p.func kwargs } := by
  unfold Pool.call
  split
  · exact Or.inl rfl
  · dsimp only
    split
    · exact Or.inl rfl
    · by_cases hk : kwargs.isEmpty
      · rw [if_pos hk]
        split
        · exact Or.inl rfl
        · split
          · exact Or.inl rfl
          · exact Or.inl rfl
      · rw [if_neg hk]
        split
        · exact Or.inr rfl
        · split
          · exact Or.inr rfl
          · exact Or.inl rfl

theorem call_pool_ncpu (p : Pool ι σ ε α) (itrs : Itrs ι) (args : σ)
    (total : Option Int) (kwargs : Kw) :
    (p.call itrs args total kwargs).pool.ncpu = p.ncpu := by
  rcases call_pool_cases p itrs args total kwargs with h | h <;> rw [h]

theorem call_pool_desc (p : Pool ι σ ε α) (itrs : Itrs ι) (args : σ)
    (total : Option Int) (kwargs : Kw) :
    (p.call itrs args total kwargs).pool.desc = p.desc := by
  rcases call_pool_cases p itrs args total kwargs with h | h <;> rw [h]

theorem call_branch (p : Pool ι σ ε α) (itrs : Itrs ι) (args : σ)
    (total : Option Int) (kwargs : Kw) (tot : Int)
    (htot : resolvedTotal itrs total = some tot) :
    (p.call itrs args total kwargs).branch
      = if min tot p.ncpu = 1 then some true else some false := by
  unfold Pool.call
  rw [htot]
  dsimp only
  by_cases h : min tot p.ncpu = 1
  · rw [if_pos h, if_pos h]
  · rw [if_neg h, if_neg h]
    split
    · rfl
    · split <;> rfl

/-! ### Claim theorems -/

/-- C1: in SERIAL mode (effective worker count `min(total, ncpu) = 1`), the
invocation returns exactly the ordered list of per-item applications of the
pure function to each input with the shared arguments and keyword options. -/
theorem serial_returns_ordered_map (p : Pool ι σ ε α) (itrs : Itrs ι) (args : σ)
    (total : Option Int) (kwargs : Kw) (tot : Int) (g : ι → α)
    (htot : resolvedTotal itrs total = some tot)
    (hser : min tot p.ncpu = 1)
    (hg : ∀ i ∈ itrs.items, p.func.call i args kwargs = Except.ok (g i)) :
    (p.call itrs args total kwargs).result = Except.ok (itrs.items.map g) := by
  unfold Pool.call
  rw [htot]
  dsimp only
  rw [if_pos hser]
  dsimp only
  rw [runSerial_ok_map p.func args kwargs g itrs.items hg]
  rfl

theorem serial_returns_ordered_map_witness :
    (Pool.call (ι := Int) (σ := Unit) (ε := Unit) (α := Int)
        ⟨1, "", ⟨fun i _ _ => Except.ok (i + 1), []⟩⟩
        ⟨[10, 20, 30], true⟩ () none []).result
      = Except.ok ([10, 20, 30].map (fun i => i + 1)) :=
  serial_returns_ordered_map _ _ _ _ _ 3 (fun i => i + 1) rfl (by decide)
    (fun _ _ => rfl)

/-- C4: worker-count resolution in the constructor: with
`nmax = P - L // P`, an unset or non-positive request resolves to `nmax`,
a positive request resolves to `min (max n 1) nmax`, and with `P = 4`,
`L = 8` the unset, `100`, `0` and negative requests all resolve to `2`;
resolution is total, so no error is raised for an out-of-range request. -/
theorem init_worker_resolution (f : PyFunc ι σ ε α) (d : String) (P L : Nat) :
    ((Pool.init f P L none d).ncpu = nmaxOf P L)
    ∧ (∀ n : Int, n ≤ 0 → (Pool.init f P L (some n) d).ncpu = nmaxOf P L)
    ∧ (∀ n : Int, 0 < n →
        (Pool.init f P L (some n) d).ncpu = min (max n 1) (nmaxOf P L))
    ∧ (Pool.init f 4 8 none d).ncpu = 2
    ∧ (Pool.init f 4 8 (some 100) d).ncpu = 2
    ∧ (Pool.init f 4 8 (some 0) d).ncpu = 2
    ∧ (Pool.init f 4 8 (some (-7)) d).ncpu = 2 := by
  refine ⟨rfl, fun n hn => ?_, fun n hn => ?_, rfl, rfl, rfl, rfl⟩
  · unfold Pool.init
    dsimp only
    rw [if_pos hn]
  · unfold Pool.init
    dsimp only
    rw [if_neg (by omega)]

theorem init_worker_resolution_witness :
    (Pool.init (ι := Int) (σ := Unit) (ε := Unit) (α := Int)
        ⟨fun i _ _ => Except.ok i, []⟩ 4 8 (some (-3)) "").ncpu = nmaxOf 4 8 :=
  (init_worker_resolution _ "" 4 8).2.1 (-3) (by decide)

/-- C5 counterexample: on a machine with 2 physical and 4 logical cores the
hardware ceiling is `2 - 4 // 2 = 0`, and an unset request resolves the
worker count to `0`, violating the claimed invariant `1 ≤ workerCount`. -/
theorem ncpu_invariant_counterexample :
    ¬ (1 ≤ (Pool.init (ι := Int) (σ := Unit) (ε := Unit) (α := Int)
        ⟨fun i _ _ => Except.ok i, []⟩ 2 4 none "").ncpu) := by
  decide

/-- C5 amended: provided the hardware ceiling `P - L // P` is at least `1`,
every constructed pool satisfies `1 ≤ ncpu ≤ ceiling` whatever the request,
and no invocation mutates the resolved worker count. -/
theorem ncpu_invariant (f : PyFunc ι σ ε α) (d : String) (P L : Nat)
    (req : Option Int) (hceil : 1 ≤ nmaxOf P L) :
    (1 ≤ (Pool.init f P L req d).ncpu
      ∧ (Pool.init f P L req d).ncpu ≤ nmaxOf P L)
    ∧ ∀ (itrs : Itrs ι) (args : σ) (total : Option Int) (kwargs : Kw),
        ((Pool.init f P L req d).call itrs args total kwargs).pool.ncpu
          = (Pool.init f P L req d).ncpu := by
  constructor
  · rcases req with _ | n
    · exact ⟨hceil, le_refl _⟩
    · unfold Pool.init
      dsimp only
      by_cases hn : n ≤ 0
      · rw [if_pos hn]; exact ⟨hceil, le_refl _⟩
      · rw [if_neg hn]
        exact ⟨le_min (le_max_right n 1) hceil, min_le_right _ _⟩
  · intro itrs args total kwargs
    exact call_pool_ncpu _ _ _ _ _

theorem ncpu_invariant_witness :
    1 ≤ (Pool.init (ι := Int) (σ := Unit) (ε := Unit) (α := Int)
        ⟨fun i _ _ => Except.ok i, []⟩ 4 8 (some 100) "").ncpu ∧
    (Pool.init (ι := Int) (σ := Unit) (ε := Unit) (α := Int)
        ⟨fun i _ _ => Except.ok i, []⟩ 4 8 (some 100) "").ncpu ≤ nmaxOf 4 8 :=
  (ncpu_invariant _ "" 4 8 (some 100) (by decide)).1

/-- C6 counterexample: with a resolved worker count of `2` and an empty
sized input, the effective count is `min 0 2 = 0`, which is not greater
than `1`, yet the invocation takes the PARALLEL branch (the source tests
`ncpu == 1`, not `ncpu > 1`). -/
theorem branch_selection_counterexample :
    (Pool.call (ι := Int) (σ := Unit) (ε := Unit) (α := Int)
        ⟨2, "", ⟨fun i _ _ => Except.ok i, []⟩⟩ ⟨[], true⟩ () none []).branch
      = some false ∧ ¬ (1 < min (0 : Int) 2) :=
  ⟨rfl, by decide⟩

/-- C6 amended: the effective worker count is `min(total, ncpu)`; the SERIAL
branch is taken exactly when it equals `1` and the PARALLEL branch exactly
when it differs from `1` (hence also when it is `0` or negative); in
particular one item with a worker count of at least `1` always runs
SERIAL. -/
theorem branch_selection (p : Pool ι σ ε α) (itrs : Itrs ι) (args : σ)
    (total : Option Int) (kwargs : Kw) (tot : Int)
    (htot : resolvedTotal itrs total = some tot) :
    ((p.call itrs args total kwargs).branch = some true ↔ min tot p.ncpu = 1)
    ∧ ((p.call itrs args total kwargs).branch = some false ↔ min tot p.ncpu ≠ 1)
    ∧ (tot = 1 → 1 ≤ p.ncpu → (p.call itrs args total kwargs).branch = some true) := by
  have hb := call_branch p itrs args total kwargs tot htot
  by_cases h : min tot p.ncpu = 1
  · rw [if_pos h] at hb
    exact ⟨⟨fun _ => h, fun _ => hb⟩,
      ⟨fun hc => absurd (hb ▸ hc) (by simp), fun hc => absurd h hc⟩,
      fun _ _ => hb⟩
  · rw [if_neg h] at hb
    refine ⟨⟨fun hc => absurd (hb ▸ hc) (by simp), fun hc => absurd hc h⟩,
      ⟨fun _ => h, fun _ => hb⟩, fun h1 hp => ?_⟩
    exact absurd (by rw [h1]; exact min_eq_left hp) h

theorem branch_selection_witness :
    (Pool.call (ι := Int) (σ := Unit) (ε := Unit) (α := Int)
        ⟨5, "", ⟨fun i _ _ => Except.ok i, []⟩⟩ ⟨[7], true⟩ () none []).branch
      = some true :=
  (branch_selection ⟨5, "", ⟨fun i _ _ => Except.ok i, []⟩⟩ ⟨[7], true⟩ () none
    [] 1 rfl).2.2 rfl (by decide)

theorem runSerial_wfunc (f : PyFunc ι σ ε α) (kwargs : Kw) (args : σ)
    (l : List ι) :
    runSerial (if kwargs.isEmpty then f else kwBind f kwargs) args [] l
      = runSerial f args kwargs l := by
  cases kwargs with
  | nil => rfl
  | cons q ks => rw [if_neg (by simp), runSerial_kwBind]

/-- C2: with a sized input of more than one element, defaulted total and a
resolved worker count greater than one, the invocation takes the PARALLEL
branch and returns exactly what the SERIAL execution of the same function
with the same shared arguments and keyword options would return — `imap`
collects results in submission order, so `result[i]` corresponds to
`input[i]` regardless of worker completion order. -/
theorem parallel_eq_serial (p : Pool ι σ ε α) (itrs : Itrs ι) (args : σ)
    (kwargs : Kw) (hsz : itrs.sized = true) (hlen : 1 < itrs.items.length)
    (hw : 1 < p.ncpu) :
    ((p.call itrs args none kwargs).branch = some false)
    ∧ ((p.call itrs args none kwargs).result
        = Except.mapError PoolErr.item
            (runSerial p.func args kwargs itrs.items).1) := by
  have htot : resolvedTotal itrs none = some ((itrs.items.length : Nat) : Int) := by
    simp [resolvedTotal, Itrs.len, hsz]
  have hlt : 1 < min ((itrs.items.length : Nat) : Int) p.ncpu := by
    refine lt_min ?_ hw
    exact_mod_cast hlen
  have hne : min ((itrs.items.length : Nat) : Int) p.ncpu ≠ 1 := by omega
  constructor
  · rw [call_branch p itrs args none kwargs _ htot, if_neg hne]
  · unfold Pool.call
    rw [htot]
    dsimp only
    rw [if_neg hne,
      if_neg (by omega : ¬ min ((itrs.items.length : Nat) : Int) p.ncpu < 1)]
    rw [runSerial_wfunc]
    rcases hr : (runSerial p.func args kwargs itrs.items).1 with e | bs <;> rfl

theorem parallel_eq_serial_witness :
    (Pool.call ⟨2, "", exFunc⟩ ⟨[1, 2], true⟩ () none [("b", 5)]).result
      = Except.mapError PoolErr.item (runSerial exFunc () [("b", 5)] [1, 2]).1 :=
  (parallel_eq_serial ⟨2, "", exFunc⟩ ⟨[1, 2], true⟩ () [("b", 5)]
    rfl (by decide) (by decide)).2

/-- C3 counterexample: a PARALLEL invocation with non-empty keyword options
whose function raises (here on input `3`) skips the restore line, so the
pool's stored function after the invocation is the keyword-bound wrapper,
not its pre-call value. -/
theorem func_restore_counterexample :
    (Pool.call ⟨2, "", exFunc⟩ ⟨[1, 2, 3, 4, 5], true⟩ () none
        [("b", 10)]).pool.func ≠ exFunc := by
  intro h
  have hb : ([("b", 10)] : Kw) = [] := congrArg PyFunc.bound h
  exact absurd hb (by decide)

/-- C3 amended: the stored function (indeed the whole pool state) equals its
pre-call value whenever the invocation returns normally; a PARALLEL
invocation with non-empty keyword options that raises instead leaves the
keyword-bound wrapper stored. -/
theorem func_restore_on_success (p : Pool ι σ ε α) (itrs : Itrs ι) (args : σ)
    (total : Option Int) (kwargs : Kw)
    (hok : (p.call itrs args total kwargs).result.isOk = true) :
    (p.call itrs args total kwargs).pool = p := by
  revert hok
  unfold Pool.call
  split
  · intro hok; exact absurd hok (by simp [Except.isOk, Except.toBool])
  · dsimp only
    split
    · intro _; rfl
    · split
      · intro hok; exact absurd hok (by simp [Except.isOk, Except.toBool])
      · split
        · intro hok; exact absurd hok (by simp [Except.isOk, Except.toBool])
        · intro _; rfl

theorem func_restore_on_success_witness :
    (Pool.call ⟨2, "", exFunc⟩ ⟨[1, 2], true⟩ () none [("b", 10)]).pool
      = ⟨2, "", exFunc⟩ :=
  func_restore_on_success ⟨2, "", exFunc⟩ ⟨[1, 2], true⟩ () none
    [("b", 10)] rfl

theorem call_funcWrites_zero (p : Pool ι σ ε α) (itrs : Itrs ι) (args : σ)
    (total : Option Int) (kwargs : Kw)
    (h : (p.call itrs args total kwargs).branch ≠ some false ∨ kwargs = []) :
    (p.call itrs args total kwargs).funcWrites = 0 := by
  revert h
  unfold Pool.call
  split
  · intro _; rfl
  · dsimp only
    split
    · intro _; rfl
    · split
      · intro h
        rcases h with h | h
        · exact absurd rfl h
        · subst h; rfl
      · split
        · intro h
          rcases h with h | h
          · exact absurd rfl h
          · subst h; rfl
        · intro h
          rcases h with h | h
          · exact absurd rfl h
          · subst h; rfl

/-- C7 counterexample: with non-empty keyword options, a PARALLEL invocation
whose function raises on the 3rd of 5 items propagates the error (first
conjunct, the part of the claim that holds), but a subsequent invocation on
the same pool no longer functions correctly: the same later call yields a
different result on the post-failure pool than on the original pool,
because the leaked keyword-bound wrapper still applies the old options. -/
theorem invoke_failure_counterexample :
    ((Pool.call ⟨2, "", exFunc⟩ ⟨[1, 2, 3, 4, 5], true⟩ () none
        [("b", 10)]).result = Except.error (PoolErr.item ()))
    ∧ (((Pool.call ⟨2, "", exFunc⟩ ⟨[1, 2, 3, 4, 5], true⟩ () none
        [("b", 10)]).pool.call ⟨[1], true⟩ () none []).result
      = Except.ok [11])
    ∧ ((Pool.call ⟨2, "", exFunc⟩ ⟨[1], true⟩ () none []).result
      = Except.ok [1])
    ∧ (Except.ok [11] ≠ (Except.ok [1] : Except (PoolErr Unit) (List Int))) :=
  ⟨rfl, rfl, rfl, by simp⟩

/-- C7 amended: when the resolved total makes the effective worker count at
least one and the invocation either runs serially or carries no keyword
options, an item error surfaces as-is (the result is the first error the
ordered execution of the stored function raises — never a partial list),
and the pool is left exactly as before the call, so a subsequent invocation
behaves as on the original pool.  A failing PARALLEL invocation with
keyword options instead leaves the keyword-bound wrapper installed. -/
theorem invoke_failure (p : Pool ι σ ε α) (itrs : Itrs ι) (args : σ)
    (total : Option Int) (kwargs : Kw) (tot : Int)
    (htot : resolvedTotal itrs total = some tot)
    (hproc : 1 ≤ min tot p.ncpu)
    (hk : kwargs = [] ∨ min tot p.ncpu = 1) :
    ((p.call itrs args total kwargs).pool = p)
    ∧ ∀ e, ((p.call itrs args total kwargs).result
          = Except.error (PoolErr.item e)
        ↔ (runSerial p.func args kwargs itrs.items).1 = Except.error e) := by
  unfold Pool.call
  rw [htot]
  dsimp only
  by_cases h1 : min tot p.ncpu = 1
  · rw [if_pos h1]
    refine ⟨rfl, fun e => ?_⟩
    rcases hr : (runSerial p.func args kwargs itrs.items).1 with e' | as
    · simp [Except.mapError]
    · simp [Except.mapError]
  · rcases hk with hk | hk
    · subst hk
      rw [if_neg h1, if_neg (by omega)]
      simp only [List.isEmpty_nil, if_true]
      rcases hr : (runSerial p.func args [] itrs.items).1 with e' | as
      · exact ⟨rfl, fun e => by simp⟩
      · exact ⟨rfl, fun e => by simp⟩
    · exact absurd hk h1

theorem invoke_failure_witness :
    ((Pool.call ⟨1, "", exFunc⟩ ⟨[1, 2, 3, 4, 5], true⟩ () none []).pool
      = ⟨1, "", exFunc⟩)
    ∧ ((Pool.call ⟨1, "", exFunc⟩ ⟨[1, 2, 3, 4, 5], true⟩ () none []).result
        = Except.error (PoolErr.item ())
      ↔ (runSerial exFunc () [] [1, 2, 3, 4, 5]).1 = Except.error ()) :=
  ⟨(invoke_failure ⟨1, "", exFunc⟩ ⟨[1, 2, 3, 4, 5], true⟩ () none [] 5 rfl
      (by decide) (Or.inl rfl)).1,
   (invoke_failure ⟨1, "", exFunc⟩ ⟨[1, 2, 3, 4, 5], true⟩ () none [] 5 rfl
      (by decide) (Or.inl rfl)).2 ()⟩

/-- C8: with an input that supports no length query and no explicit total,
the invocation fails with the distinguished sizing error (Python's
`TypeError` from `len`) before doing any work: the function is never
called, no progress tick is emitted, no execution branch is entered, the
pool is untouched, and the error is distinct from every item-execution
error. -/
theorem unsized_fails_fast (p : Pool ι σ ε α) (itrs : Itrs ι) (args : σ)
    (kwargs : Kw) (hs : itrs.sized = false) :
    ((p.call itrs args none kwargs).result = Except.error PoolErr.sizing)
    ∧ ((p.call itrs args none kwargs).calls = 0)
    ∧ ((p.call itrs args none kwargs).ticks = 0)
    ∧ ((p.call itrs args none kwargs).branch = none)
    ∧ ((p.call itrs args none kwargs).pool = p)
    ∧ ∀ e : ε, (Except.error PoolErr.sizing : Except (PoolErr ε) (List α))
        ≠ Except.error (PoolErr.item e) := by
  have ht : resolvedTotal itrs none = none := by
    simp [resolvedTotal, Itrs.len, hs]
  unfold Pool.call
  rw [ht]
  exact ⟨rfl, rfl, rfl, rfl, rfl, fun e h => by simp at h⟩

theorem unsized_fails_fast_witness :
    (Pool.call ⟨2, "", exFunc⟩ ⟨[1, 2], false⟩ () none []).result
      = Except.error PoolErr.sizing :=
  (unsized_fails_fast ⟨2, "", exFunc⟩ ⟨[1, 2], false⟩ () [] rfl).1

/-- C9 counterexample: a caller-supplied total is display-only; with two
items and an explicit total of `5` the invocation succeeds but emits `2`
ticks, not `5` as the claim requires. -/
theorem ticks_counterexample :
    ((Pool.call ⟨1, "", exFunc⟩ ⟨[1, 2], true⟩ () (some 5) []).result
      = Except.ok [1, 2])
    ∧ (Pool.call ⟨1, "", exFunc⟩ ⟨[1, 2], true⟩ () (some 5) []).ticks ≠ 5 :=
  ⟨rfl, by decide⟩

/-- C9 amended: on a successful invocation the per-item progress ticks
equal the number of input items, in both modes; this equals the total
exactly when the total is omitted, since an omitted total resolves to
`len(inputs)`, while a caller-supplied total only affects the display. -/
theorem ticks_on_success (p : Pool ι σ ε α) (itrs : Itrs ι) (args : σ)
    (total : Option Int) (kwargs : Kw) (as : List α)
    (hok : (p.call itrs args total kwargs).result = Except.ok as) :
    ((p.call itrs args total kwargs).ticks = itrs.items.length)
    ∧ (itrs.sized = true →
        resolvedTotal itrs none = some ((itrs.items.length : Nat) : Int)) := by
  refine ⟨?_, fun hs => by simp [resolvedTotal, Itrs.len, hs]⟩
  revert hok
  unfold Pool.call
  split
  · intro hok; exact absurd hok (by simp)
  · dsimp only
    split
    · intro hok
      dsimp only at hok ⊢
      rcases hr : (runSerial p.func args kwargs itrs.items).1 with e | bs
      · rw [hr] at hok; simp [Except.mapError] at hok
      · exact runSerial_ok_ticks _ _ _ _ bs hr
    · split
      · intro hok; exact absurd hok (by simp)
      · split
        · intro hok; exact absurd hok (by simp)
        · rename_i as' heq
          intro _
          exact runSerial_ok_ticks _ _ _ _ as' heq

theorem ticks_on_success_witness :
    (Pool.call ⟨1, "", exFunc⟩ ⟨[1, 2], true⟩ () none []).ticks
      = ([1, 2] : List Int).length :=
  (ticks_on_success ⟨1, "", exFunc⟩ ⟨[1, 2], true⟩ () none [] [1, 2] rfl).1

/-- C10: every invocation preserves the resolved worker count and the
description; the serial branch never writes `self.func`, nor does any
invocation with empty keyword options, not even transiently; any write to
`self.func` can only happen in the PARALLEL branch with non-empty keyword
options. -/
theorem invocation_frame (p : Pool ι σ ε α) (itrs : Itrs ι) (args : σ)
    (total : Option Int) (kwargs : Kw) :
    ((p.call itrs args total kwargs).pool.ncpu = p.ncpu)
    ∧ ((p.call itrs args total kwargs).pool.desc = p.desc)
    ∧ ((p.call itrs args total kwargs).branch = some true →
        (p.call itrs args total kwargs).funcWrites = 0)
    ∧ (kwargs = [] → (p.call itrs args total kwargs).funcWrites = 0)
    ∧ (0 < (p.call itrs args total kwargs).funcWrites →
        (p.call itrs args total kwargs).branch = some false ∧ kwargs ≠ []) := by
  refine ⟨call_pool_ncpu _ _ _ _ _, call_pool_desc _ _ _ _ _, ?_, ?_, ?_⟩
  · intro hb
    apply call_funcWrites_zero
    left
    rw [hb]
    decide
  · intro hk
    exact call_funcWrites_zero _ _ _ _ _ (Or.inr hk)
  · intro hw
    by_cases hb : (p.call itrs args total kwargs).branch = some false
    · refine ⟨hb, fun hk => ?_⟩
      rw [call_funcWrites_zero _ _ _ _ _ (Or.inr hk)] at hw
      exact lt_irrefl 0 hw
    · rw [call_funcWrites_zero _ _ _ _ _ (Or.inl hb)] at hw
      exact absurd hw (lt_irrefl 0)

theorem invocation_frame_witness :
    (Pool.call ⟨2, "", exFunc⟩ ⟨[1, 2], true⟩ () none []).funcWrites = 0 :=
  (invocation_frame ⟨2, "", exFunc⟩ ⟨[1, 2], true⟩ () none []).2.2.2.1 rfl
